import Mathlib

/-!
Shallow embedding of the library-borrowing service (Django app `library`):
models, serializers and views translated into pure Lean functions over an
explicit database state, together with theorems checking the
natural-language specification against this embedding.

Sources embedded: `library/models.py`, `library/serializers.py`,
`library/views.py`, `library/stripe_system.py`. Dates are modelled as
integers (days), decimal currency amounts as exact integer hundredths,
the database as lists of rows, and the external Stripe processor as
explicit oracle parameters describing the outcome of each network call.
-/

namespace LibraryService

/-!
Calendar dates are counted in whole days as plain `Int`s (Python `date`
subtraction yields `.days`). Decimal currency amounts
(`DecimalField(max_digits=7, decimal_places=2)`) are represented exactly
in hundredths of a currency unit (cents), also as `Int`: the amount
`2.00` is the integer `200`. The source only ever multiplies a money
amount by an integer day count or by `Decimal("2")`, so this integer
representation is exact — no rounding is modelled because none occurs.
-/

/-- Row of the `Book` model: primary key, inventory counter and daily fee.
`inventory` is kept as an integer so that non-negativity is a statement,
not a typing artifact. Fields not used by any operation under
verification (title, cover, authors) are omitted. -/
structure Book where
  id : Nat
  inventory : Int
  daily_fee : Int
deriving Repr, DecidableEq

/-- Row of the `Borrowing` model. `user` and `book` are foreign keys
(primary keys of the referenced rows); `actual_return_date = none` means
the borrowing is active. -/
structure Borrowing where
  id : Nat
  book : Nat
  user : Nat
  borrow_date : Int
  expected_return_date : Int
  actual_return_date : Option Int
deriving Repr, DecidableEq

/-- `Payment.Status` choices. -/
inductive PStatus where
  | PENDING
  | PAID
deriving Repr, DecidableEq

/-- `Payment.Type` choices. -/
inductive PType where
  | PAYMENT
  | FINE
deriving Repr, DecidableEq

/-- Row of the `Payment` model. `session_id`/`session_url` are the opaque
handles of the external checkout session (nullable). -/
structure Payment where
  id : Nat
  borrowing : Nat
  ptype : PType
  status : PStatus
  money_to_pay : Int
  session_id : Option String
  session_url : Option String
deriving Repr, DecidableEq

/-- The relational database state: one list of rows per table, plus the
autoincrement counters for the two tables the operations insert into. -/
structure LibState where
  books : List Book
  borrowings : List Borrowing
  payments : List Payment
  nextBorrowingId : Nat
  nextPaymentId : Nat
deriving Repr, DecidableEq

/-- Error taxonomy of the embedded operations (each constructor
corresponds to one `ValidationError` / HTTP-error site in the source). -/
inductive LibError where
  | InvalidDate
  | DuplicateActiveBorrowing
  | OutOfStock
  | NotFound
  | NotOwner
  | DuplicatePendingPayment
  | AlreadyReturned
  | UnpaidBalance
  | PaymentGatewayError
deriving Repr, DecidableEq

/-- `Book.objects.get(id=...)`: first row with the given primary key. -/
def findBook (st : LibState) (bookId : Nat) : Option Book :=
  st.books.find? (fun b => b.id == bookId)

/-- `Borrowing.objects.get(id=...)`: first row with the given primary key. -/
def findBorrowing (st : LibState) (borrowingId : Nat) : Option Borrowing :=
  st.borrowings.find? (fun b => b.id == borrowingId)

/-- `Borrowing.objects.filter(book=..., user=..., actual_return_date__isnull=True).exists()`
from `BorrowingCreateSerializer.validate`. -/
def hasActiveBorrowing (st : LibState) (userId bookId : Nat) : Bool :=
  st.borrowings.any (fun br =>
    br.book == bookId && br.user == userId && br.actual_return_date.isNone)

/-- `BorrowingCreateSerializer` end to end: field validation
(`validate_expected_return_date`), object validation (`validate`) and
`create`. `today` stands for `timezone.now().date()` / `timezone.localdate()`;
the created borrowing's `borrow_date` defaults to the creation day. On
success the decremented state and the created row are returned; every
`ValidationError` aborts with no state change (the `create` body runs in
`transaction.atomic`). -/
def borrowingCreate (st : LibState) (userId bookId : Nat)
    (expected today : Int) : Except LibError (LibState × Borrowing) :=
  if expected < today then
    .error .InvalidDate
  else if hasActiveBorrowing st userId bookId then
    .error .DuplicateActiveBorrowing
  else
    match findBook st bookId with
    | none => .error .NotFound
    | some book =>
      if book.inventory ≤ 0 then
        .error .OutOfStock
      else
        let br : Borrowing :=
          { id := st.nextBorrowingId, book := bookId, user := userId,
            borrow_date := today, expected_return_date := expected,
            actual_return_date := none }
        .ok ({ st with
                books := st.books.map (fun b =>
                  if b.id == bookId then { b with inventory := b.inventory - 1 } else b),
                borrowings := st.borrowings ++ [br],
                nextBorrowingId := st.nextBorrowingId + 1 }, br)

/-- The borrowing queryset a requester may address
(`PaymentCreateSerializer.__init__` and `BorrowingViewSet.get_queryset`):
staff see all borrowings, other users only their own. -/
def borrowingQuerysetFor (st : LibState) (requester : Nat) (staff : Bool) :
    List Borrowing :=
  if staff then st.borrowings
  else st.borrowings.filter (fun br => br.user == requester)

/-- `Payment.objects.filter(borrowing__user=..., borrowing__book=..., status=PENDING).first()`
from `PaymentCreateSerializer.validate`: first PENDING payment (of either
type) whose borrowing joins to the given user and book. -/
def pendingForPair (st : LibState) (userId bookId : Nat) : Option Payment :=
  st.payments.find? (fun p =>
    (match findBorrowing st p.borrowing with
     | some br => br.user == userId && br.book == bookId
     | none => false) && p.status == .PENDING)

/-- `PaymentCreateSerializer` field restriction plus `validate`: resolve
the borrowing inside the requester's queryset, check ownership, and
reject when a PENDING payment already exists for the same (user, book)
pair across any borrowing. -/
def paymentValidate (st : LibState) (requester : Nat) (staff : Bool)
    (borrowingId : Nat) : Except LibError Borrowing :=
  match (borrowingQuerysetFor st requester staff).find? (fun br => br.id == borrowingId) with
  | none => .error .NotFound
  | some br =>
    if br.user != requester && !staff then
      .error .NotOwner
    else
      match pendingForPair st br.user br.book with
      | some _ => .error .DuplicatePendingPayment
      | none => .ok br

/-- `PaymentCreateSerializer.create`: re-check for a PENDING payment on
this borrowing, compute the rental cost
`daily_fee * max((expected_return_date - borrow_date).days, 1)`, insert
the PENDING rental PAYMENT row, and if the borrowing is already overdue
(`timezone.localdate() > expected_return_date`) also insert a PENDING
FINE row of `overdue_days * daily_fee * 2`. Returns the new state, the
rental payment row (the serializer's return value) and the ids of every
row this call inserted. -/
def paymentCreateCore (st : LibState) (br : Borrowing) (today : Int) :
    Except LibError (LibState × Payment × List Nat) :=
  if st.payments.any (fun p => p.borrowing == br.id && p.status == .PENDING) then
    .error .DuplicatePendingPayment
  else
    match findBook st br.book with
    | none => .error .NotFound
    | some book =>
      let actual_days : Int := max (br.expected_return_date - br.borrow_date) 1
      let rental_money : Int := book.daily_fee * actual_days
      let payment : Payment :=
        { id := st.nextPaymentId, borrowing := br.id, ptype := .PAYMENT,
          status := .PENDING, money_to_pay := rental_money,
          session_id := none, session_url := none }
      let overdue_days : Int := max 0 (today - br.expected_return_date)
      if overdue_days > 0 then
        let fine_money : Int := overdue_days * book.daily_fee * 2
        let fine : Payment :=
          { id := st.nextPaymentId + 1, borrowing := br.id, ptype := .FINE,
            status := .PENDING, money_to_pay := fine_money,
            session_id := none, session_url := none }
        .ok ({ st with
                payments := st.payments ++ [payment, fine],
                nextPaymentId := st.nextPaymentId + 2 }, payment,
             [payment.id, fine.id])
      else
        .ok ({ st with
                payments := st.payments ++ [payment],
                nextPaymentId := st.nextPaymentId + 1 }, payment,
             [payment.id])

/-- `PaymentCreateSerializer.is_valid` followed by `.save()`: validation
then creation. -/
def paymentCreateFlow (st : LibState) (requester : Nat) (staff : Bool)
    (borrowingId : Nat) (today : Int) :
    Except LibError (LibState × Payment × List Nat) :=
  match paymentValidate st requester staff borrowingId with
  | .error e => .error e
  | .ok br => paymentCreateCore st br today

/-- Opaque handle returned by a successful external
`stripe.checkout.Session.create` call. -/
structure SessionData where
  session_id : String
  session_url : String
deriving Repr, DecidableEq

/-- `Payment.objects.filter(borrowing=..., status=PENDING)` from
`StripeService.get_or_create_session_for_borrowing`. -/
def pendingPaymentsFor (st : LibState) (borrowingId : Nat) : List Payment :=
  st.payments.filter (fun p => p.borrowing == borrowingId && p.status == .PENDING)

/-- `StripeService.get_or_create_session_for_borrowing`: gather the
borrowing's PENDING payments; if none, return `none`; otherwise call the
external processor (`outcome` is the result of that network call:
`none` means it raised) and stamp the returned session handle onto every
gathered payment row. The session metadata manifest `payment_ids`
assembled by `create_checkout_session` is exactly the ids of the
gathered payments. -/
def get_or_create_session_for_borrowing (st : LibState) (borrowingId : Nat)
    (outcome : Option SessionData) :
    Except LibError (LibState × Option SessionData) :=
  let pending := pendingPaymentsFor st borrowingId
  if pending.isEmpty then
    .ok (st, none)
  else
    match outcome with
    | none => .error .PaymentGatewayError
    | some sd =>
      .ok ({ st with payments := st.payments.map (fun p =>
              if p.borrowing == borrowingId && p.status == .PENDING then
                { p with session_id := some sd.session_id,
                         session_url := some sd.session_url }
              else p) }, some sd)

/-- The `payment_ids` metadata manifest written by
`StripeService.create_checkout_session` for a borrowing's pending
payments. -/
def sessionManifest (st : LibState) (borrowingId : Nat) : List Nat :=
  (pendingPaymentsFor st borrowingId).map (·.id)

/-- Outcome of `PaymentViewSet.create` as seen by the caller. -/
inductive PaymentCreateResult where
  | created (sessionUrl : Option String) (payment : Payment)
  | validationError (e : LibError)
  | sessionError
deriving Repr, DecidableEq

/-- `PaymentViewSet.create`: run the serializer (validation + row
creation), then ask Stripe for a checkout session for the payment's
borrowing; if that raises, execute the compensating `payment.delete()`
(which removes only the serializer's returned rental payment row) and
answer 400. -/
def paymentViewCreate (st : LibState) (requester : Nat) (staff : Bool)
    (borrowingId : Nat) (today : Int) (outcome : Option SessionData) :
    LibState × PaymentCreateResult :=
  match paymentCreateFlow st requester staff borrowingId today with
  | .error e => (st, .validationError e)
  | .ok (st1, payment, _) =>
    match get_or_create_session_for_borrowing st1 payment.borrowing outcome with
    | .ok (st2, sd) =>
      (st2, .created (match sd with
                      | some d => some d.session_url
                      | none => payment.session_url) payment)
    | .error _ =>
      ({ st1 with payments := st1.payments.filter (fun p => p.id != payment.id) },
       .sessionError)

/-- The first half of `BorrowingReturnSerializer.update`: when the
borrowing has no Payment rows at all, auto-create one through
`PaymentCreateSerializer` and open a Stripe session through
`StripeService.get_or_create_session_for_borrowing`. These writes are
not covered by the atomic block around the return itself, so a failure
here aborts the return while keeping the payment rows already
committed — hence the explicit state in the error case. -/
def returnEnsurePayments (st : LibState) (requester : Nat) (staff : Bool)
    (borrowingId : Nat) (today : Int) (outcome : Option SessionData) :
    LibState × Option LibError :=
  if (st.payments.filter fun p => p.borrowing == borrowingId).isEmpty then
    match paymentCreateFlow st requester staff borrowingId today with
    | .error e => (st, some e)
    | .ok (st1, _, _) =>
      match get_or_create_session_for_borrowing st1 borrowingId outcome with
      | .error e => (st1, some e)
      | .ok (st2, _) => (st2, none)
  else (st, none)

/-- `BorrowingReturnSerializer` driven by `BorrowingViewSet.return_book`:
`get_object` over the requester's queryset, `validate` (already returned?
unpaid PENDING payments and requester not staff?), then `update`: the
same pending re-check, `returnEnsurePayments`, and finally — atomically —
the inventory increment and `actual_return_date := today`. The state is
returned alongside the result because a Stripe failure aborts the return
after the auto-created payment rows were already committed. -/
def borrowingReturn (st : LibState) (requester : Nat) (staff : Bool)
    (borrowingId : Nat) (today : Int) (outcome : Option SessionData) :
    LibState × Except LibError Borrowing :=
  match (borrowingQuerysetFor st requester staff).find? (fun br => br.id == borrowingId) with
  | none => (st, .error .NotFound)
  | some br =>
    if br.actual_return_date.isSome then
      (st, .error .AlreadyReturned)
    else if (st.payments.any fun p => p.borrowing == borrowingId && p.status == .PENDING) && !staff then
      (st, .error .UnpaidBalance)
    else if (st.payments.any fun p => p.borrowing == borrowingId && p.status == .PENDING) && !staff then
      (st, .error .UnpaidBalance)
    else
      match returnEnsurePayments st requester staff borrowingId today outcome with
      | (stX, some e) => (stX, .error e)
      | (stX, none) =>
        match findBook stX br.book with
        | none => (stX, .error .NotFound)
        | some _ =>
          ({ stX with
              books := stX.books.map (fun b =>
                if b.id == br.book then { b with inventory := b.inventory + 1 } else b),
              borrowings := stX.borrowings.map (fun x =>
                if x.id == borrowingId then { x with actual_return_date := some today } else x) },
           .ok { br with actual_return_date := some today })

/-- `StripeService.is_session_paid`: queries the session's payment
status; `paidQuery` is the outcome of that network call (`none` means
`retrieve_session` raised). The `except Exception: return False` clause
turns any processor error into `false`. -/
def is_session_paid (paidQuery : Option Bool) : Bool :=
  match paidQuery with
  | some paid => paid
  | none => false

/-- Outcome of `GET /payments/success` as seen by the caller. -/
inductive SuccessOutcome where
  | missingSessionId
  | notFound
  | paidOk (ids : List Nat)
  | notCompleted
  | processingError
deriving Repr, DecidableEq

/-- `PaymentViewSet.success` (ConfirmPayment): look up a payment by
`session_id`; query the processor's paid status (`paidQuery`, errors
swallowed to `false` by `is_session_paid`); if paid, retrieve the
session again (`sessionQuery`: the parsed `payment_ids` metadata
manifest, or `none` when this second call raises, which the surrounding
`except` maps to a processing-error response), fall back to all payments
sharing the `session_id` when the manifest is empty, and set every
targeted payment row's status to PAID. -/
def paymentsSuccess (st : LibState) (sessionIdParam : Option String)
    (paidQuery : Option Bool) (sessionQuery : Option (List Nat)) :
    LibState × SuccessOutcome :=
  match sessionIdParam with
  | none => (st, .missingSessionId)
  | some sid =>
    if (st.payments.find? (fun p => p.session_id == some sid)).isNone then
      (st, .notFound)
    else if is_session_paid paidQuery then
      match sessionQuery with
      | none => (st, .processingError)
      | some manifest =>
        let payment_ids :=
          if manifest.isEmpty then
            (st.payments.filter (fun p => p.session_id == some sid)).map (·.id)
          else manifest
        ({ st with payments := st.payments.map (fun p =>
            if payment_ids.contains p.id then { p with status := .PAID } else p) },
         .paidOk payment_ids)
    else
      (st, .notCompleted)

/-- `BorrowingViewSet.get_queryset`: staff see every borrowing, others
only their own; the optional `is_active` query parameter filters on
`actual_return_date`; the result is ordered by `borrow_date`. -/
def borrowingGetQueryset (st : LibState) (requester : Nat) (staff : Bool)
    (is_active : Option String) : List Borrowing :=
  let q : List Borrowing :=
    if staff then st.borrowings
    else st.borrowings.filter (fun br => br.user == requester)
  let q : List Borrowing := match is_active with
    | some s =>
      if s.toLower == "true" then q.filter (fun br => br.actual_return_date.isNone)
      else if s.toLower == "false" then q.filter (fun br => br.actual_return_date.isSome)
      else q
    | none => q
  q.mergeSort (fun a b => a.borrow_date ≤ b.borrow_date)

/-- `PaymentViewSet.get_queryset`: staff see every payment, others only
payments whose borrowing joins to them (`filter(borrowing__user=user)`). -/
def paymentGetQueryset (st : LibState) (requester : Nat) (staff : Bool) :
    List Payment :=
  if staff then st.payments
  else st.payments.filter (fun p =>
    match findBorrowing st p.borrowing with
    | some br => br.user == requester
    | none => false)

/-- `retrieve` / `get_object`: resolve a primary key inside the
requester's borrowing queryset. -/
def borrowingRetrieve (st : LibState) (requester : Nat) (staff : Bool)
    (borrowingId : Nat) : Option Borrowing :=
  (borrowingGetQueryset st requester staff none).find? (fun br => br.id == borrowingId)

/-- `retrieve` / `get_object`: resolve a primary key inside the
requester's payment queryset. -/
def paymentRetrieve (st : LibState) (requester : Nat) (staff : Bool)
    (paymentId : Nat) : Option Payment :=
  (paymentGetQueryset st requester staff).find? (fun p => p.id == paymentId)

/-- One externally triggered mutation of the borrowing/inventory core:
a borrowing-creation request or a return request (with its requester,
clock reading and Stripe-call outcome). -/
inductive Op where
  | create (userId bookId : Nat) (expected today : Int)
  | ret (requester : Nat) (staff : Bool) (borrowingId : Nat)
        (today : Int) (outcome : Option SessionData)
deriving Repr, DecidableEq

/-- State reached after one operation: a rejected operation leaves the
database unchanged (every mutation in the source runs inside
`transaction.atomic`, except the payment rows a failed return has
already committed, which `borrowingReturn` accounts for). -/
def applyOp (st : LibState) (op : Op) : LibState :=
  match op with
  | .create u b e t =>
    match borrowingCreate st u b e t with
    | .ok (st', _) => st'
    | .error _ => st
  | .ret r s b t oc => (borrowingReturn st r s b t oc).1

/-- Well-formedness carried by the relational schema: primary keys of
the `Book` table are unique. -/
def BooksWF (st : LibState) : Prop :=
  (st.books.map (·.id)).Nodup

/-- The specification's inventory invariant: every book's available-copy
counter is non-negative. -/
def InventoryNonneg (st : LibState) : Prop :=
  ∀ b ∈ st.books, 0 ≤ b.inventory

/-- Inventory of the book `bookId` in `st` (0 if the row is absent). -/
def bookInventory (st : LibState) (bookId : Nat) : Int :=
  ((findBook st bookId).map (·.inventory)).getD 0

instance (st : LibState) : Decidable (BooksWF st) := by
  unfold BooksWF; infer_instance

instance (st : LibState) : Decidable (InventoryNonneg st) := by
  unfold InventoryNonneg; infer_instance

/-- Modelled from the spec (§4.2 Payment Calculator), for comparison with
the cost computed inside `PaymentCreateSerializer.create`:
`rental_cost(daily_fee, borrow_date, expected_return_date) =
 daily_fee * max(days_between(borrow_date, expected_return_date), 1)`. -/
def rental_cost_spec (daily_fee : Int) (borrow_date expected_return_date : Int) :
    Int :=
  daily_fee * max (expected_return_date - borrow_date) 1

/-- Modelled from the spec (§4.2 Payment Calculator), for comparison with
the fine computed inside `PaymentCreateSerializer.create`:
`overdue_fine(daily_fee, expected_return_date, today) =
 daily_fee * 2 * (today - expected_return_date)` when overdue, else 0. -/
def overdue_fine_spec (daily_fee : Int) (expected_return_date today : Int) :
    Int :=
  if expected_return_date < today then
    daily_fee * 2 * (today - expected_return_date)
  else 0

/-- Example: one book with empty inventory and no other rows. -/
def stOutOfStock : LibState :=
  { books := [{ id := 1, inventory := 0, daily_fee := 200 }],
    borrowings := [], payments := [],
    nextBorrowingId := 10, nextPaymentId := 20 }

/-- Example: user 7 actively borrows book 1 (fee 2.00, borrowed day 0,
expected back day 5), no payments yet. -/
def stActiveLoan : LibState :=
  { books := [{ id := 1, inventory := 0, daily_fee := 200 }],
    borrowings := [{ id := 10, book := 1, user := 7, borrow_date := 0,
                     expected_return_date := 5, actual_return_date := none }],
    payments := [],
    nextBorrowingId := 11, nextPaymentId := 20 }

/-- Example: the active loan with a single PENDING FINE payment. -/
def stFinePending : LibState :=
  { stActiveLoan with
    payments := [{ id := 20, borrowing := 10, ptype := .FINE, status := .PENDING,
                   money_to_pay := 400, session_id := none, session_url := none }],
    nextPaymentId := 21 }

/-- Example: the active loan with a single PENDING rental payment. -/
def stUnpaidLoan : LibState :=
  { stActiveLoan with
    payments := [{ id := 20, borrowing := 10, ptype := .PAYMENT, status := .PENDING,
                   money_to_pay := 1000, session_id := none, session_url := none }],
    nextPaymentId := 21 }

/-- Example: the active loan with a PENDING rental payment and a PENDING
fine, not yet attached to any session. -/
def stTwoPending : LibState :=
  { stActiveLoan with
    payments := [{ id := 20, borrowing := 10, ptype := .PAYMENT, status := .PENDING,
                   money_to_pay := 1000, session_id := none, session_url := none },
                 { id := 21, borrowing := 10, ptype := .FINE, status := .PENDING,
                   money_to_pay := 1200, session_id := none, session_url := none }],
    nextPaymentId := 22 }

/-- Example: `stTwoPending` after the session `"sess1"` has been stamped
onto both pending payments. -/
def stTwoPendingSessioned : LibState :=
  { stActiveLoan with
    payments := [{ id := 20, borrowing := 10, ptype := .PAYMENT, status := .PENDING,
                   money_to_pay := 1000, session_id := some "sess1",
                   session_url := some "url1" },
                 { id := 21, borrowing := 10, ptype := .FINE, status := .PENDING,
                   money_to_pay := 1200, session_id := some "sess1",
                   session_url := some "url1" }],
    nextPaymentId := 22 }

/-- Example: the active loan with a PENDING rental payment attached to
the external session `"sess1"`. -/
def stSessioned : LibState :=
  { stActiveLoan with
    payments := [{ id := 20, borrowing := 10, ptype := .PAYMENT, status := .PENDING,
                   money_to_pay := 1000, session_id := some "sess1",
                   session_url := some "url1" }],
    nextPaymentId := 21 }

/-- Example: two non-staff users (7 and 8) each with one borrowing of
book 1 and one payment. -/
def stTwoUsers : LibState :=
  { books := [{ id := 1, inventory := 3, daily_fee := 200 }],
    borrowings := [{ id := 10, book := 1, user := 7, borrow_date := 0,
                     expected_return_date := 5, actual_return_date := none },
                   { id := 11, book := 1, user := 8, borrow_date := 1,
                     expected_return_date := 6, actual_return_date := none }],
    payments := [{ id := 20, borrowing := 10, ptype := .PAYMENT, status := .PENDING,
                   money_to_pay := 1000, session_id := none, session_url := none },
                 { id := 21, borrowing := 11, ptype := .PAYMENT, status := .PENDING,
                   money_to_pay := 1000, session_id := none, session_url := none }],
    nextBorrowingId := 12, nextPaymentId := 22 }

/-! General lemmas about row updates expressed as selective `List.map`s. -/

/-- `find?` commutes with a map that leaves the searched predicate
invariant. -/
theorem find?_map_of_pred_inv {α : Type _} (p : α → Bool) (f : α → α)
    (hf : ∀ a, p (f a) = p a) (l : List α) :
    (l.map f).find? p = (l.find? p).map f := by
  rw [List.find?_map]
  have h : (p ∘ f) = p := funext hf
  rw [h]

/-- `filter` commutes with a map that leaves the filtered predicate
invariant. -/
theorem filter_map_of_pred_inv {α : Type _} (p : α → Bool) (f : α → α)
    (hf : ∀ a, p (f a) = p a) (l : List α) :
    (l.map f).filter p = (l.filter p).map f := by
  rw [List.filter_map]
  have h : (p ∘ f) = p := funext hf
  rw [h]

/-- Mapping a row update that leaves a key invariant does not change the
list of keys. -/
theorem map_key_map_of_key_inv {α β : Type _} (key : α → β) (f : α → α)
    (hf : ∀ a, key (f a) = key a) (l : List α) :
    (l.map f).map key = l.map key := by
  rw [List.map_map]
  exact List.map_congr_left (fun a _ => hf a)

/-! Decomposition lemmas for the embedded operations. -/

/-- A successful `BorrowingCreateSerializer.create` found a book with
positive inventory and performed exactly the decrement and the row
insert. -/
theorem borrowingCreate_ok_spec (st : LibState) (u bId : Nat) (e t : Int)
    (st' : LibState) (br : Borrowing)
    (h : borrowingCreate st u bId e t = .ok (st', br)) :
    ∃ bk, findBook st bId = some bk ∧ 0 < bk.inventory ∧
      br = { id := st.nextBorrowingId, book := bId, user := u, borrow_date := t,
             expected_return_date := e, actual_return_date := none } ∧
      st' = { st with
              books := st.books.map (fun x =>
                if x.id == bId then { x with inventory := x.inventory - 1 } else x),
              borrowings := st.borrowings ++ [br],
              nextBorrowingId := st.nextBorrowingId + 1 } := by
  unfold borrowingCreate at h
  split at h
  · exact absurd h (by simp)
  · split at h
    · exact absurd h (by simp)
    · split at h
      · exact absurd h (by simp)
      · rename_i bk hbk
        split at h
        · exact absurd h (by simp)
        · rename_i hpos
          simp only [Except.ok.injEq, Prod.mk.injEq] at h
          obtain ⟨hst, hbr⟩ := h
          exact ⟨bk, hbk, by omega, hbr.symm, by rw [← hst, ← hbr]⟩

/-- A successful `PaymentCreateSerializer.create` found the borrowing's
book and inserted exactly the rental PAYMENT row — plus, when overdue,
the FINE row — with the amounts computed in the source. -/
theorem paymentCreateCore_ok_spec (st : LibState) (br : Borrowing) (today : Int)
    (st1 : LibState) (p : Payment) (ids : List Nat)
    (h : paymentCreateCore st br today = .ok (st1, p, ids)) :
    ∃ book, findBook st br.book = some book ∧
      (st.payments.any (fun q => q.borrowing == br.id && q.status == .PENDING)) = false ∧
      p = { id := st.nextPaymentId, borrowing := br.id, ptype := .PAYMENT,
            status := .PENDING,
            money_to_pay := book.daily_fee * max (br.expected_return_date - br.borrow_date) 1,
            session_id := none, session_url := none } ∧
      ((br.expected_return_date < today ∧
          st1 = { st with
                  payments := st.payments ++
                    [p, { id := st.nextPaymentId + 1, borrowing := br.id, ptype := .FINE,
                          status := .PENDING,
                          money_to_pay := max 0 (today - br.expected_return_date) * book.daily_fee * 2,
                          session_id := none, session_url := none }],
                  nextPaymentId := st.nextPaymentId + 2 } ∧
          ids = [st.nextPaymentId, st.nextPaymentId + 1])
       ∨ (today ≤ br.expected_return_date ∧
          st1 = { st with
                  payments := st.payments ++ [p],
                  nextPaymentId := st.nextPaymentId + 1 } ∧
          ids = [st.nextPaymentId])) := by
  unfold paymentCreateCore at h
  split at h
  · exact absurd h (by simp)
  · rename_i hdup
    split at h
    · exact absurd h (by simp)
    · rename_i book hbk
      refine ⟨book, hbk, by simpa using hdup, ?_⟩
      dsimp only at h
      split at h
      · rename_i hover
        simp only [Except.ok.injEq, Prod.mk.injEq] at h
        obtain ⟨hst, hp, hids⟩ := h
        refine ⟨hp.symm, Or.inl ⟨by simp [lt_max_iff] at hover; exact hover, ?_, hids.symm⟩⟩
        rw [← hst, ← hp]
      · rename_i hover
        simp only [Except.ok.injEq, Prod.mk.injEq] at h
        obtain ⟨hst, hp, hids⟩ := h
        refine ⟨hp.symm, Or.inr ⟨by simp [lt_max_iff] at hover; exact hover, ?_, hids.symm⟩⟩
        rw [← hst, ← hp]

/-- `get_or_create_session_for_borrowing` only writes payment rows. -/
theorem get_or_create_ok_frame (st : LibState) (bid : Nat)
    (oc : Option SessionData) (st2 : LibState) (sd : Option SessionData)
    (h : get_or_create_session_for_borrowing st bid oc = .ok (st2, sd)) :
    st2.books = st.books ∧ st2.borrowings = st.borrowings ∧
    st2.nextBorrowingId = st.nextBorrowingId := by
  unfold get_or_create_session_for_borrowing at h
  dsimp only at h
  by_cases hp : (pendingPaymentsFor st bid).isEmpty = true
  · rw [if_pos hp] at h
    simp only [Except.ok.injEq, Prod.mk.injEq] at h
    rw [← h.1]
    exact ⟨rfl, rfl, rfl⟩
  · rw [if_neg hp] at h
    cases oc with
    | none => exact absurd h (by simp)
    | some sd' =>
      simp only [Except.ok.injEq, Prod.mk.injEq] at h
      rw [← h.1]
      exact ⟨rfl, rfl, rfl⟩

/-- `PaymentCreateSerializer.create` only writes payment rows. -/
theorem paymentCreateCore_ok_frame (st : LibState) (br : Borrowing) (today : Int)
    (st1 : LibState) (p : Payment) (ids : List Nat)
    (h : paymentCreateCore st br today = .ok (st1, p, ids)) :
    st1.books = st.books ∧ st1.borrowings = st.borrowings ∧
    st1.nextBorrowingId = st.nextBorrowingId := by
  obtain ⟨book, _, _, _, hcase⟩ := paymentCreateCore_ok_spec st br today st1 p ids h
  rcases hcase with ⟨_, hst, _⟩ | ⟨_, hst, _⟩ <;> rw [hst] <;> exact ⟨rfl, rfl, rfl⟩

/-- `paymentCreateFlow` only writes payment rows. -/
theorem paymentCreateFlow_ok_frame (st : LibState) (r : Nat) (s : Bool)
    (bid : Nat) (today : Int) (st1 : LibState) (p : Payment) (ids : List Nat)
    (h : paymentCreateFlow st r s bid today = .ok (st1, p, ids)) :
    st1.books = st.books ∧ st1.borrowings = st.borrowings ∧
    st1.nextBorrowingId = st.nextBorrowingId := by
  unfold paymentCreateFlow at h
  split at h
  · exact absurd h (by simp)
  · rename_i br hbr
    exact paymentCreateCore_ok_frame st br today st1 p ids h

/-- The payment-ensuring half of a return only writes payment rows. -/
theorem returnEnsurePayments_frame (st : LibState) (r : Nat) (s : Bool)
    (bid : Nat) (today : Int) (oc : Option SessionData) :
    ((returnEnsurePayments st r s bid today oc).1).books = st.books ∧
    ((returnEnsurePayments st r s bid today oc).1).borrowings = st.borrowings ∧
    ((returnEnsurePayments st r s bid today oc).1).nextBorrowingId = st.nextBorrowingId := by
  unfold returnEnsurePayments
  split
  · split
    · exact ⟨rfl, rfl, rfl⟩
    · rename_i st1 pay ids hflow
      obtain ⟨hb, hbr, hn⟩ := paymentCreateFlow_ok_frame st r s bid today st1 pay ids hflow
      split
      · exact ⟨hb, hbr, hn⟩
      · rename_i st2 sd hsess
        obtain ⟨hb2, hbr2, hn2⟩ := get_or_create_ok_frame st1 bid oc st2 sd hsess
        exact ⟨hb2.trans hb, hbr2.trans hbr, hn2.trans hn⟩
  · exact ⟨rfl, rfl, rfl⟩

/-! Claim theorems. -/

/-- Claim C2: a create-borrowing request on a book whose inventory is 0
(with the date and duplicate-active-borrowing validations otherwise
passing) fails with `OutOfStock` and leaves the state unchanged — the
book's inventory stays 0 and no Borrowing row is inserted. -/
theorem C2_create_out_of_stock (st : LibState) (u bId : Nat) (e t : Int)
    (bk : Book)
    (hdate : t ≤ e)
    (hdup : hasActiveBorrowing st u bId = false)
    (hbk : findBook st bId = some bk)
    (hzero : bk.inventory = 0) :
    borrowingCreate st u bId e t = .error .OutOfStock ∧
    applyOp st (.create u bId e t) = st := by
  have hlt : ¬ e < t := not_lt.mpr hdate
  have h1 : borrowingCreate st u bId e t = .error .OutOfStock := by
    unfold borrowingCreate
    rw [if_neg hlt]
    simp only [hdup, Bool.false_eq_true, if_false, hbk]
    rw [if_pos (by omega)]
  refine ⟨h1, ?_⟩
  unfold applyOp
  dsimp only
  rw [h1]

/-- Claim C2 witness at the concrete out-of-stock state. -/
theorem C2_create_out_of_stock_witness :
    ((0 : Int) ≤ 5 ∧ hasActiveBorrowing stOutOfStock 7 1 = false ∧
       findBook stOutOfStock 1 = some { id := 1, inventory := 0, daily_fee := 200 } ∧
       ({ id := 1, inventory := 0, daily_fee := 200 } : Book).inventory = 0) ∧
    (borrowingCreate stOutOfStock 7 1 5 0 = .error .OutOfStock ∧
     applyOp stOutOfStock (.create 7 1 5 0) = stOutOfStock) :=
  ⟨⟨by decide, by decide, by decide, by decide⟩,
   C2_create_out_of_stock stOutOfStock 7 1 5 0 { id := 1, inventory := 0, daily_fee := 200 }
     (by decide) (by decide) (by decide) (by decide)⟩

/-- Claim C6: the rental cost CreatePayment charges equals
`daily_fee * max(days between borrow_date and expected_return_date, 1)`
(at least one day billed), and in particular a 2.00 fee over 5 days gives
10.00 and a 1.50 fee over a same-day window gives 1.50 (amounts in
hundredths). -/
theorem C6_rental_cost (st : LibState) (br : Borrowing) (today : Int)
    (st1 : LibState) (p : Payment) (ids : List Nat) (bk : Book)
    (h : paymentCreateCore st br today = .ok (st1, p, ids))
    (hbk : findBook st br.book = some bk) :
    p.money_to_pay = rental_cost_spec bk.daily_fee br.borrow_date br.expected_return_date ∧
    (∀ d : Int, rental_cost_spec 200 d (d + 5) = 1000) ∧
    (∀ d : Int, rental_cost_spec 150 d d = 150) := by
  obtain ⟨book, hbk', -, hp, -⟩ := paymentCreateCore_ok_spec st br today st1 p ids h
  have hbb : book = bk := Option.some_inj.mp (hbk'.symm.trans hbk)
  subst hbb
  refine ⟨by rw [hp]; rfl, ?_, ?_⟩
  · intro d
    unfold rental_cost_spec
    have h5 : d + 5 - d = (5 : Int) := by ring
    rw [h5]
    decide
  · intro d
    unfold rental_cost_spec
    have h0 : d - d = (0 : Int) := by ring
    rw [h0]
    decide

/-- Claim C6 witness: the overdue active loan, payment created on day 8. -/
theorem C6_rental_cost_witness :
    (paymentCreateCore stActiveLoan
        { id := 10, book := 1, user := 7, borrow_date := 0,
          expected_return_date := 5, actual_return_date := none } 8 =
      .ok ({ stActiveLoan with
              payments := [{ id := 20, borrowing := 10, ptype := .PAYMENT, status := .PENDING,
                             money_to_pay := 1000, session_id := none, session_url := none },
                           { id := 21, borrowing := 10, ptype := .FINE, status := .PENDING,
                             money_to_pay := 1200, session_id := none, session_url := none }],
              nextPaymentId := 22 },
            { id := 20, borrowing := 10, ptype := .PAYMENT, status := .PENDING,
              money_to_pay := 1000, session_id := none, session_url := none },
            [20, 21]) ∧
     findBook stActiveLoan 1 = some { id := 1, inventory := 0, daily_fee := 200 }) ∧
    ({ id := 20, borrowing := 10, ptype := .PAYMENT, status := .PENDING,
       money_to_pay := 1000, session_id := none, session_url := none } : Payment).money_to_pay
      = rental_cost_spec 200 0 5 ∧
    (∀ d : Int, rental_cost_spec 200 d (d + 5) = 1000) ∧
    (∀ d : Int, rental_cost_spec 150 d d = 150) :=
  ⟨⟨by rfl, by rfl⟩,
   C6_rental_cost stActiveLoan
     { id := 10, book := 1, user := 7, borrow_date := 0,
       expected_return_date := 5, actual_return_date := none } 8
     _ _ _ { id := 1, inventory := 0, daily_fee := 200 } (by rfl) (by rfl)⟩

/-- Claim C7: when CreatePayment runs after the expected return date it
also inserts a PENDING FINE payment of `daily_fee * 2 * days_overdue`;
when it runs on or before that date the fine amount is 0 and no FINE row
is created; e.g. a 2.00 fee three days overdue yields 12.00 and zero
days overdue yields 0.00 (amounts in hundredths). -/
theorem C7_overdue_fine (st : LibState) (br : Borrowing) (today : Int)
    (st1 : LibState) (p : Payment) (ids : List Nat) (bk : Book)
    (h : paymentCreateCore st br today = .ok (st1, p, ids))
    (hbk : findBook st br.book = some bk) :
    (br.expected_return_date < today →
      ∃ fine, st1.payments = st.payments ++ [p, fine] ∧ fine.ptype = .FINE ∧
        fine.status = .PENDING ∧
        fine.money_to_pay = overdue_fine_spec bk.daily_fee br.expected_return_date today) ∧
    (today ≤ br.expected_return_date →
      overdue_fine_spec bk.daily_fee br.expected_return_date today = 0 ∧
      st1.payments.filter (fun q => q.ptype == .FINE) =
        st.payments.filter (fun q => q.ptype == .FINE)) ∧
    (∀ d : Int, overdue_fine_spec 200 d (d + 3) = 1200) ∧
    (∀ d : Int, overdue_fine_spec 200 d d = 0) := by
  obtain ⟨book, hbk', -, hp, hcase⟩ := paymentCreateCore_ok_spec st br today st1 p ids h
  have hbb : bk = book := Option.some_inj.mp (hbk.symm.trans hbk')
  subst hbb
  refine ⟨?_, ?_, ?_, ?_⟩
  · intro hover
    rcases hcase with ⟨-, hst, -⟩ | ⟨hle, -, -⟩
    · refine ⟨_, by rw [hst], rfl, rfl, ?_⟩
      show max 0 (today - br.expected_return_date) * bk.daily_fee * 2 =
        overdue_fine_spec bk.daily_fee br.expected_return_date today
      unfold overdue_fine_spec
      rw [if_pos hover, max_eq_right (by omega)]
      ring
    · omega
  · intro hle
    constructor
    · unfold overdue_fine_spec
      rw [if_neg (by omega)]
    · rcases hcase with ⟨hover, -, -⟩ | ⟨-, hst, -⟩
      · omega
      · rw [hst]
        show (st.payments ++ [p]).filter (fun q => q.ptype == .FINE) = _
        rw [List.filter_append]
        have : [p].filter (fun q => q.ptype == .FINE) = [] := by
          rw [hp]; rfl
        rw [this, List.append_nil]
  · intro d
    unfold overdue_fine_spec
    rw [if_pos (by omega)]
    have h3 : d + 3 - d = (3 : Int) := by ring
    rw [h3]
    decide
  · intro d
    unfold overdue_fine_spec
    rw [if_neg (by omega)]

/-- Claim C7 witness: the overdue active loan (3 days overdue on day 8). -/
theorem C7_overdue_fine_witness :
    (paymentCreateCore stActiveLoan
        { id := 10, book := 1, user := 7, borrow_date := 0,
          expected_return_date := 5, actual_return_date := none } 8 =
      .ok ({ stActiveLoan with
              payments := [{ id := 20, borrowing := 10, ptype := .PAYMENT, status := .PENDING,
                             money_to_pay := 1000, session_id := none, session_url := none },
                           { id := 21, borrowing := 10, ptype := .FINE, status := .PENDING,
                             money_to_pay := 1200, session_id := none, session_url := none }],
              nextPaymentId := 22 },
            { id := 20, borrowing := 10, ptype := .PAYMENT, status := .PENDING,
              money_to_pay := 1000, session_id := none, session_url := none },
            [20, 21]) ∧
     findBook stActiveLoan 1 = some { id := 1, inventory := 0, daily_fee := 200 } ∧
     (5 : Int) < 8) ∧
    (∃ fine, ({ stActiveLoan with
                payments := [{ id := 20, borrowing := 10, ptype := .PAYMENT, status := .PENDING,
                               money_to_pay := 1000, session_id := none, session_url := none },
                             { id := 21, borrowing := 10, ptype := .FINE, status := .PENDING,
                               money_to_pay := 1200, session_id := none, session_url := none }],
                nextPaymentId := 22 } : LibState).payments
          = stActiveLoan.payments ++
              [{ id := 20, borrowing := 10, ptype := .PAYMENT, status := .PENDING,
                 money_to_pay := 1000, session_id := none, session_url := none }, fine] ∧
        fine.ptype = .FINE ∧ fine.status = .PENDING ∧
        fine.money_to_pay = overdue_fine_spec 200 5 8) :=
  ⟨⟨by rfl, by rfl, by decide⟩,
   ((C7_overdue_fine stActiveLoan
      { id := 10, book := 1, user := 7, borrow_date := 0,
        expected_return_date := 5, actual_return_date := none } 8
      _ _ _ { id := 1, inventory := 0, daily_fee := 200 } (by rfl) (by rfl)).1
    (by decide))⟩

/-- A book's borrowing row is found by its own id when borrowing primary
keys are unique. -/
theorem findBorrowing_self (st : LibState) (br : Borrowing)
    (hids : (st.borrowings.map (·.id)).Nodup) (hmem : br ∈ st.borrowings) :
    findBorrowing st br.id = some br := by
  unfold findBorrowing
  have hsome : (st.borrowings.find? (fun b => b.id == br.id)).isSome := by
    rw [List.find?_isSome]
    exact ⟨br, hmem, by simp⟩
  obtain ⟨x, hx⟩ := Option.isSome_iff_exists.mp hsome
  have hxm := List.mem_of_find?_eq_some hx
  have hxp := List.find?_some hx
  have hxbr : x = br := List.inj_on_of_nodup_map hids hxm hmem (by simpa using hxp)
  rw [hx, hxbr]

/-- Claim C4, counterexample: in `stFinePending` the only PENDING payment
for the (user 7, book 1) pair is of type FINE — no PENDING payment of
type PAYMENT exists anywhere — yet CreatePayment for that user's
borrowing of that book is rejected with `DuplicatePendingPayment`,
contradicting the claim's "if and only if ... of type PAYMENT" and "a
PENDING FINE alone does not block" parts. -/
theorem C4_counterexample :
    paymentCreateFlow stFinePending 7 false 10 0 = .error .DuplicatePendingPayment ∧
    stFinePending.payments.all
      (fun p => !(p.status == .PENDING && p.ptype == .PAYMENT)) = true := by
  exact ⟨by rfl, by decide⟩

/-- Claim C4, amended: CreatePayment fails with `DuplicatePendingPayment`
if and only if a PENDING Payment of EITHER type (PAYMENT or FINE) exists
for the same (user, book) pair across any borrowing — in particular an
existing PENDING FINE alone already blocks creating a new rental
payment. (Stated for a non-staff requester whose borrowing resolves in
their queryset, with unique borrowing primary keys.) -/
theorem C4_duplicate_pending_any_type (st : LibState) (requester bid : Nat)
    (br : Borrowing) (today : Int)
    (hids : (st.borrowings.map (·.id)).Nodup)
    (hfind : (borrowingQuerysetFor st requester false).find? (fun x => x.id == bid) = some br) :
    paymentCreateFlow st requester false bid today = .error .DuplicatePendingPayment
      ↔ (pendingForPair st br.user br.book).isSome = true := by
  have hqs : borrowingQuerysetFor st requester false
      = st.borrowings.filter (fun x => x.user == requester) := by
    unfold borrowingQuerysetFor
    rw [if_neg (by simp)]
  rw [hqs] at hfind
  have hmemf := List.mem_of_find?_eq_some hfind
  rw [List.mem_filter] at hmemf
  obtain ⟨hmem, huser⟩ := hmemf
  have hflow : paymentCreateFlow st requester false bid today
      = match pendingForPair st br.user br.book with
        | some _ => .error .DuplicatePendingPayment
        | none => paymentCreateCore st br today := by
    unfold paymentCreateFlow paymentValidate
    rw [hqs, hfind]
    dsimp only
    have he : br.user = requester := by simpa using huser
    have hown : (br.user != requester && !false) = false := by
      simp [he]
    rw [hown]
    simp only [Bool.false_eq_true, if_false]
    cases pendingForPair st br.user br.book <;> rfl
  rw [hflow]
  cases hpp : pendingForPair st br.user br.book with
  | some q => simp
  | none =>
    simp only [Option.isSome_none, Bool.false_eq_true, iff_false]
    intro hcore
    have hnopend : (st.payments.any fun p => p.borrowing == br.id && p.status == .PENDING) = false := by
      rw [← Bool.not_eq_true, List.any_eq_true]
      rintro ⟨p, hpmem, hp⟩
      rw [Bool.and_eq_true] at hp
      obtain ⟨hpb, hpst⟩ := hp
      have hpb' : p.borrowing = br.id := by simpa using hpb
      have : (pendingForPair st br.user br.book).isSome = true := by
        rw [pendingForPair, List.find?_isSome]
        refine ⟨p, hpmem, ?_⟩
        rw [hpb', findBorrowing_self st br hids hmem]
        simp [hpst]
      rw [hpp] at this
      exact absurd this (by simp)
    unfold paymentCreateCore at hcore
    rw [hnopend] at hcore
    simp only [Bool.false_eq_true, if_false] at hcore
    cases hbk : findBook st br.book with
    | none => rw [hbk] at hcore; exact absurd hcore (by simp)
    | some book =>
      rw [hbk] at hcore
      dsimp only at hcore
      split at hcore <;> exact absurd hcore (by simp)

/-- Claim C4 amended-theorem witness at the concrete FINE-blocked state. -/
theorem C4_duplicate_pending_any_type_witness :
    ((stFinePending.borrowings.map (·.id)).Nodup ∧
     (borrowingQuerysetFor stFinePending 7 false).find? (fun x => x.id == 10) =
       some { id := 10, book := 1, user := 7, borrow_date := 0,
              expected_return_date := 5, actual_return_date := none }) ∧
    (paymentCreateFlow stFinePending 7 false 10 0 = .error .DuplicatePendingPayment
      ↔ (pendingForPair stFinePending 7 1).isSome = true) :=
  ⟨⟨by decide, by rfl⟩,
   C4_duplicate_pending_any_type stFinePending 7 10
     { id := 10, book := 1, user := 7, borrow_date := 0,
       expected_return_date := 5, actual_return_date := none } 0
     (by decide) (by rfl)⟩

/-- Claim C8, counterexample: with payment 20 attached to session
`"sess1"`, a processor error during the paid-status query (`none`
oracle) produces the same `notCompleted` outcome as a genuinely unpaid
session, not a distinct gateway-error outcome — `is_session_paid`
swallows the exception and returns `False`. -/
theorem C8_counterexample :
    (paymentsSuccess stSessioned (some "sess1") none (some [20])).2 = .notCompleted ∧
    (paymentsSuccess stSessioned (some "sess1") (some false) (some [20])).2 = .notCompleted ∧
    SuccessOutcome.notCompleted ≠ SuccessOutcome.processingError := by
  exact ⟨by rfl, by rfl, by decide⟩

/-- Claim C8, amended: an external-processor error during the
paid-status query is NOT surfaced distinctly — `ConfirmPayment` behaves
exactly as if the session were not yet paid (first conjunct, for every
state and request). Only an error in the second session retrieval, after
a paid verdict was already obtained, surfaces as the distinct
processing-error outcome (second conjunct). -/
theorem C8_gateway_error_conflated (st : LibState) (sp : Option String)
    (q : Option (List Nat)) (sid : String)
    (hex : (st.payments.find? (fun p => p.session_id == some sid)).isSome = true) :
    paymentsSuccess st sp none q = paymentsSuccess st sp (some false) q ∧
    paymentsSuccess st (some sid) (some true) none = (st, .processingError) := by
  constructor
  · unfold paymentsSuccess
    cases sp with
    | none => rfl
    | some s =>
      dsimp only
      by_cases hf : (st.payments.find? (fun p => p.session_id == some s)).isNone = true
      · rw [if_pos hf, if_pos hf]
      · rw [if_neg hf, if_neg hf]
        rfl
  · unfold paymentsSuccess
    dsimp only
    have hf : ¬ ((st.payments.find? (fun p => p.session_id == some sid)).isNone = true) := by
      obtain ⟨x, hx⟩ := Option.isSome_iff_exists.mp hex
      rw [hx]
      simp
    rw [if_neg hf, if_pos (by rfl)]

/-- Claim C8 amended-theorem witness at the concrete sessioned state. -/
theorem C8_gateway_error_conflated_witness :
    ((stSessioned.payments.find? (fun p => p.session_id == some "sess1")).isSome = true) ∧
    (paymentsSuccess stSessioned (some "sess1") none (some [20])
       = paymentsSuccess stSessioned (some "sess1") (some false) (some [20]) ∧
     paymentsSuccess stSessioned (some "sess1") (some true) none
       = (stSessioned, .processingError)) :=
  ⟨by rfl,
   C8_gateway_error_conflated stSessioned (some "sess1") (some [20]) "sess1" (by rfl)⟩

/-- Every borrowing a non-staff user can list is their own. -/
theorem mem_borrowingGetQueryset_user (st : LibState) (u : Nat)
    (pprm : Option String) (br : Borrowing)
    (h : br ∈ borrowingGetQueryset st u false pprm) : br.user = u := by
  unfold borrowingGetQueryset at h
  rw [List.mem_mergeSort] at h
  simp only [Bool.false_eq_true, if_false] at h
  have hq0 : br ∈ st.borrowings.filter (fun x => x.user == u) := by
    cases pprm with
    | none => exact h
    | some s =>
      dsimp only at h
      by_cases h1 : (s.toLower == "true") = true
      · rw [if_pos h1] at h
        exact (List.mem_filter.mp h).1
      · rw [if_neg h1] at h
        by_cases h2 : (s.toLower == "false") = true
        · rw [if_pos h2] at h
          exact (List.mem_filter.mp h).1
        · rw [if_neg h2] at h
          exact h
  simpa using (List.mem_filter.mp hq0).2

/-- Every payment a non-staff user can list joins to a borrowing they
own. -/
theorem mem_paymentGetQueryset_owner (st : LibState) (u : Nat) (pay : Payment)
    (h : pay ∈ paymentGetQueryset st u false) :
    (findBorrowing st pay.borrowing).map (·.user) = some u := by
  unfold paymentGetQueryset at h
  simp only [Bool.false_eq_true, if_false] at h
  have hpred := (List.mem_filter.mp h).2
  cases hb : findBorrowing st pay.borrowing with
  | none => rw [hb] at hpred; exact absurd hpred (by simp)
  | some br =>
    rw [hb] at hpred
    simpa using hpred

/-- Claim C10: for a non-staff user every borrowing/payment row returned
by list or retrieve is owned by the requester, so two distinct non-staff
users can never observe each other's Borrowing or Payment rows through
these query operations. -/
theorem C10_user_data_isolation (st : LibState) (u v : Nat)
    (pprm : Option String) (huv : u ≠ v) :
    (∀ br ∈ borrowingGetQueryset st u false pprm, br.user = u) ∧
    (∀ pay ∈ paymentGetQueryset st u false,
       (findBorrowing st pay.borrowing).map (·.user) = some u) ∧
    (∀ br ∈ borrowingGetQueryset st u false pprm, br.user ≠ v) ∧
    (∀ pay ∈ paymentGetQueryset st u false,
       (findBorrowing st pay.borrowing).map (·.user) ≠ some v) ∧
    (∀ bid br, borrowingRetrieve st u false bid = some br → br.user = u) ∧
    (∀ pid pay, paymentRetrieve st u false pid = some pay →
       (findBorrowing st pay.borrowing).map (·.user) = some u) := by
  refine ⟨?_, ?_, ?_, ?_, ?_, ?_⟩
  · exact fun br h => mem_borrowingGetQueryset_user st u pprm br h
  · exact fun pay h => mem_paymentGetQueryset_owner st u pay h
  · intro br h
    rw [mem_borrowingGetQueryset_user st u pprm br h]
    exact huv
  · intro pay h
    rw [mem_paymentGetQueryset_owner st u pay h]
    simpa using huv
  · intro bid br h
    exact mem_borrowingGetQueryset_user st u none br (List.mem_of_find?_eq_some h)
  · intro pid pay h
    exact mem_paymentGetQueryset_owner st u pay (List.mem_of_find?_eq_some h)

/-- Claim C10 witness: two concrete non-staff users. -/
theorem C10_user_data_isolation_witness :
    (7 : Nat) ≠ 8 ∧
    ((∀ br ∈ borrowingGetQueryset stTwoUsers 7 false none, br.user = 7) ∧
     (∀ pay ∈ paymentGetQueryset stTwoUsers 7 false,
        (findBorrowing stTwoUsers pay.borrowing).map (·.user) = some 7) ∧
     (∀ br ∈ borrowingGetQueryset stTwoUsers 7 false none, br.user ≠ 8) ∧
     (∀ pay ∈ paymentGetQueryset stTwoUsers 7 false,
        (findBorrowing stTwoUsers pay.borrowing).map (·.user) ≠ some 8) ∧
     (∀ bid br, borrowingRetrieve stTwoUsers 7 false bid = some br → br.user = 7) ∧
     (∀ pid pay, paymentRetrieve stTwoUsers 7 false pid = some pay →
        (findBorrowing stTwoUsers pay.borrowing).map (·.user) = some 7)) :=
  ⟨by decide, C10_user_data_isolation stTwoUsers 7 8 none (by decide)⟩

/-- Claim C9, counterexample: on the overdue loan with no prior
payments, CreatePayment inserts a rental PAYMENT and a FINE; when the
external session creation then fails, the compensating `payment.delete()`
removes only the rental row — a PENDING FINE row with no session remains
persisted, contradicting "every Payment row inserted by that
CreatePayment call is deleted". -/
theorem C9_counterexample :
    stActiveLoan.payments = [] ∧
    (paymentViewCreate stActiveLoan 7 false 10 8 none).2 = .sessionError ∧
    ((paymentViewCreate stActiveLoan 7 false 10 8 none).1).payments.any
      (fun p => p.ptype == .FINE && p.status == .PENDING && p.session_id == none) = true := by
  exact ⟨rfl, rfl, by rfl⟩

/-- Claim C9, amended: when external session creation fails after
CreatePayment inserted its rows, the compensating deletion removes only
the rental PAYMENT row. If the call inserted nothing else (not overdue),
the state is fully restored; if the call also inserted an overdue FINE
row, that FINE row survives — PENDING and without a session. -/
theorem C9_compensating_deletion_partial (st : LibState) (requester bid : Nat)
    (today : Int) (br : Borrowing) (st1 : LibState) (pay : Payment) (ids : List Nat)
    (hval : paymentValidate st requester false bid = .ok br)
    (hcore : paymentCreateCore st br today = .ok (st1, pay, ids))
    (hfresh : ∀ p ∈ st.payments, p.id < st.nextPaymentId) :
    (paymentViewCreate st requester false bid today none).2 = .sessionError ∧
    (today ≤ br.expected_return_date →
      ((paymentViewCreate st requester false bid today none).1).payments = st.payments) ∧
    (br.expected_return_date < today →
      ∃ fine, ((paymentViewCreate st requester false bid today none).1).payments
          = st.payments ++ [fine] ∧
        fine.ptype = .FINE ∧ fine.status = .PENDING ∧ fine.session_id = none) := by
  obtain ⟨book, hbk, hnodup, hpay, hcase⟩ :=
    paymentCreateCore_ok_spec st br today st1 pay ids hcore
  have hflow : paymentCreateFlow st requester false bid today = .ok (st1, pay, ids) := by
    unfold paymentCreateFlow
    rw [hval]
    exact hcore
  have hid : pay.id = st.nextPaymentId := by rw [hpay]
  have hpend : pay ∈ pendingPaymentsFor st1 pay.borrowing := by
    unfold pendingPaymentsFor
    rw [List.mem_filter]
    constructor
    · rcases hcase with ⟨-, hst, -⟩ | ⟨-, hst, -⟩ <;> rw [hst] <;> simp
    · simp [hpay]
  have hsess : get_or_create_session_for_borrowing st1 pay.borrowing none
      = .error .PaymentGatewayError := by
    unfold get_or_create_session_for_borrowing
    dsimp only
    rw [if_neg ?hne]
    case hne =>
      have hnn : pendingPaymentsFor st1 pay.borrowing ≠ [] := List.ne_nil_of_mem hpend
      cases hl : pendingPaymentsFor st1 pay.borrowing with
      | nil => exact absurd hl hnn
      | cons a as => simp
  have hview : paymentViewCreate st requester false bid today none
      = ({ st1 with payments := st1.payments.filter (fun p => p.id != pay.id) },
         .sessionError) := by
    unfold paymentViewCreate
    rw [hflow]
    dsimp only
    rw [hsess]
  have hkeep : st.payments.filter (fun p => p.id != pay.id) = st.payments := by
    rw [List.filter_eq_self]
    intro a ha
    have hlt := hfresh a ha
    rw [hid]
    simp only [bne_iff_ne, ne_eq]
    omega
  refine ⟨by rw [hview], ?_, ?_⟩
  · intro hle
    rcases hcase with ⟨hover, -, -⟩ | ⟨-, hst, -⟩
    · omega
    · rw [hview]
      dsimp only
      rw [hst]
      dsimp only
      rw [List.filter_append, hkeep]
      have h2 : [pay].filter (fun p => p.id != pay.id) = [] := by simp
      rw [h2, List.append_nil]
  · intro hover
    rcases hcase with ⟨-, hst, -⟩ | ⟨hle, -, -⟩
    · refine ⟨{ id := st.nextPaymentId + 1, borrowing := br.id, ptype := .FINE,
                status := .PENDING,
                money_to_pay := max 0 (today - br.expected_return_date) * book.daily_fee * 2,
                session_id := none, session_url := none }, ?_, rfl, rfl, rfl⟩
      rw [hview]
      dsimp only
      rw [hst]
      dsimp only
      rw [List.filter_append, hkeep]
      congr 1
      rw [hpay]
      simp
    · omega

/-- Claim C9 amended-theorem witness: the overdue loan, session failure. -/
theorem C9_compensating_deletion_partial_witness :
    (paymentValidate stActiveLoan 7 false 10 =
      .ok { id := 10, book := 1, user := 7, borrow_date := 0,
            expected_return_date := 5, actual_return_date := none } ∧
     (∀ p ∈ stActiveLoan.payments, p.id < stActiveLoan.nextPaymentId)) ∧
    ((paymentViewCreate stActiveLoan 7 false 10 8 none).2 = .sessionError ∧
     ((8 : Int) ≤ 5 →
       ((paymentViewCreate stActiveLoan 7 false 10 8 none).1).payments = stActiveLoan.payments) ∧
     ((5 : Int) < 8 →
       ∃ fine, ((paymentViewCreate stActiveLoan 7 false 10 8 none).1).payments
           = stActiveLoan.payments ++ [fine] ∧
         fine.ptype = .FINE ∧ fine.status = .PENDING ∧ fine.session_id = none)) :=
  ⟨⟨by rfl, by decide⟩,
   C9_compensating_deletion_partial stActiveLoan 7 10 8
     { id := 10, book := 1, user := 7, borrow_date := 0,
       expected_return_date := 5, actual_return_date := none }
     _ _ _ (by rfl) (by rfl) (by decide)⟩

/-- Claim C3: a return request on an active borrowing that has at least
one Payment, at least one of them PENDING, fails with `UnpaidBalance`
for a non-staff requester with no state change, while a staff requester
succeeds: `actual_return_date` is set to today, the book's inventory is
incremented by exactly 1, and the payment rows are untouched. -/
theorem C3_return_unpaid_balance (st : LibState) (br : Borrowing) (bk : Book)
    (reqU adminU : Nat) (today : Int) (oc oc2 : Option SessionData)
    (hfindU : (borrowingQuerysetFor st reqU false).find? (fun x => x.id == br.id) = some br)
    (hfindS : (borrowingQuerysetFor st adminU true).find? (fun x => x.id == br.id) = some br)
    (hactive : br.actual_return_date = none)
    (hpend : (st.payments.any fun p => p.borrowing == br.id && p.status == .PENDING) = true)
    (hbk : findBook st br.book = some bk) :
    borrowingReturn st reqU false br.id today oc = (st, .error .UnpaidBalance) ∧
    ∃ st', borrowingReturn st adminU true br.id today oc2
        = (st', .ok { br with actual_return_date := some today }) ∧
      bookInventory st' br.book = bk.inventory + 1 ∧
      st'.payments = st.payments ∧
      bookInventory st br.book = bk.inventory := by
  have hisN : br.actual_return_date.isSome = false := by rw [hactive]; rfl
  obtain ⟨p0, hp0mem, hp0⟩ := List.any_eq_true.mp hpend
  have hp0b : (p0.borrowing == br.id) = true := by
    simp only [Bool.and_eq_true] at hp0
    exact hp0.1
  have hfil : p0 ∈ st.payments.filter (fun p => p.borrowing == br.id) :=
    List.mem_filter.mpr ⟨hp0mem, hp0b⟩
  have hfilne : ¬ ((st.payments.filter fun p => p.borrowing == br.id).isEmpty = true) := by
    cases hl : st.payments.filter fun p => p.borrowing == br.id with
    | nil => exact absurd hl (List.ne_nil_of_mem hfil)
    | cons a as => simp
  constructor
  · unfold borrowingReturn
    rw [hfindU]
    dsimp only
    rw [if_neg (by simp [hisN]), if_pos (by simp [hpend])]
  · refine ⟨{ st with
        books := st.books.map (fun b =>
          if b.id == br.book then { b with inventory := b.inventory + 1 } else b),
        borrowings := st.borrowings.map (fun x =>
          if x.id == br.id then { x with actual_return_date := some today } else x) },
      ?_, ?_, rfl, ?_⟩
    · unfold borrowingReturn
      rw [hfindS]
      dsimp only
      rw [if_neg (by simp [hisN]), if_neg (by simp), if_neg (by simp)]
      have hEP : returnEnsurePayments st adminU true br.id today oc2 = (st, none) := by
        unfold returnEnsurePayments
        rw [if_neg hfilne]
      rw [hEP]
      dsimp only
      rw [hbk]
    · have hbkpred := List.find?_some hbk
      have hf : ∀ a : Book, ((if a.id == br.book
            then { a with inventory := a.inventory + 1 } else a).id == br.book)
          = (a.id == br.book) := by
        intro a
        by_cases h : (a.id == br.book) = true <;> simp [h]
      unfold bookInventory findBook
      dsimp only
      rw [find?_map_of_pred_inv (fun b => b.id == br.book)
            (fun b => if b.id == br.book then { b with inventory := b.inventory + 1 } else b)
            hf st.books]
      unfold findBook at hbk
      rw [hbk]
      have hbkeq : bk.id = br.book := by simpa using hbkpred
      simp [hbkeq]
    · unfold bookInventory
      rw [hbk]
      rfl

/-- Claim C3 witness: the unpaid active loan; user 7 is refused, staff
user 9 returns it and restores the inventory. -/
theorem C3_return_unpaid_balance_witness :
    ((borrowingQuerysetFor stUnpaidLoan 7 false).find? (fun x => x.id == 10) =
       some { id := 10, book := 1, user := 7, borrow_date := 0,
              expected_return_date := 5, actual_return_date := none } ∧
     (borrowingQuerysetFor stUnpaidLoan 9 true).find? (fun x => x.id == 10) =
       some { id := 10, book := 1, user := 7, borrow_date := 0,
              expected_return_date := 5, actual_return_date := none } ∧
     (stUnpaidLoan.payments.any fun p => p.borrowing == 10 && p.status == .PENDING) = true ∧
     findBook stUnpaidLoan 1 = some { id := 1, inventory := 0, daily_fee := 200 }) ∧
    (borrowingReturn stUnpaidLoan 7 false 10 6 none = (stUnpaidLoan, .error .UnpaidBalance) ∧
     ∃ st', borrowingReturn stUnpaidLoan 9 true 10 6 none
         = (st', .ok { id := 10, book := 1, user := 7, borrow_date := 0,
                       expected_return_date := 5, actual_return_date := some 6 }) ∧
       bookInventory st' 1 = 0 + 1 ∧
       st'.payments = stUnpaidLoan.payments ∧
       bookInventory stUnpaidLoan 1 = 0) :=
  ⟨⟨by rfl, by rfl, by rfl, by rfl⟩,
   C3_return_unpaid_balance stUnpaidLoan
     { id := 10, book := 1, user := 7, borrow_date := 0,
       expected_return_date := 5, actual_return_date := none }
     { id := 1, inventory := 0, daily_fee := 200 } 7 9 6 none none
     (by rfl) (by rfl) (by rfl) (by rfl) (by rfl)⟩

/-- Re-setting a payment's status to the value it already has is the
identity. -/
theorem payment_set_status_self (p : Payment) (h : p.status = .PAID) :
    ({ p with status := .PAID } : Payment) = p := by
  cases p
  simp_all

/-- Claim C5: after `create_session` stamps a fresh session onto a
borrowing's PENDING payments and the processor reports it paid,
ConfirmPayment transitions exactly those payments (the metadata
manifest) from PENDING to PAID and returns their ids; a second confirm
on the now-PAID payments is a no-op returning the same ids; an unpaid
session causes no mutation; and with the manifest absent the
`session_id` fallback targets exactly the same payments. -/
theorem C5_confirm_round_trip (st : LibState) (bid : Nat) (sd : SessionData)
    (st1 : LibState)
    (hpw : (st.payments.map (·.id)).Nodup)
    (hne : (pendingPaymentsFor st bid).isEmpty = false)
    (hfresh : ∀ p ∈ st.payments, p.session_id ≠ some sd.session_id)
    (hsess : get_or_create_session_for_borrowing st bid (some sd) = .ok (st1, some sd)) :
    ∃ st2,
      paymentsSuccess st1 (some sd.session_id) (some true) (some (sessionManifest st bid))
        = (st2, .paidOk (sessionManifest st bid)) ∧
      st2.books = st.books ∧
      st2.borrowings = st.borrowings ∧
      st2.payments = st.payments.map (fun p =>
        if p.borrowing == bid && p.status == .PENDING then
          { p with status := .PAID, session_id := some sd.session_id,
                   session_url := some sd.session_url }
        else p) ∧
      paymentsSuccess st2 (some sd.session_id) (some true) (some (sessionManifest st bid))
        = (st2, .paidOk (sessionManifest st bid)) ∧
      (∀ q, paymentsSuccess st1 (some sd.session_id) (some false) q = (st1, .notCompleted)) ∧
      paymentsSuccess st1 (some sd.session_id) (some true) (some ([] : List Nat))
        = (st2, .paidOk (sessionManifest st bid)) := by
  have hne' : ¬ ((pendingPaymentsFor st bid).isEmpty = true) := by rw [hne]; simp
  have hst1 : st1 = { st with payments := st.payments.map (fun p =>
      if p.borrowing == bid && p.status == .PENDING then
        { p with session_id := some sd.session_id, session_url := some sd.session_url }
      else p) } := by
    unfold get_or_create_session_for_borrowing at hsess
    dsimp only at hsess
    rw [if_neg hne'] at hsess
    simp only [Except.ok.injEq, Prod.mk.injEq] at hsess
    exact hsess.1.symm
  subst hst1
  have hpneq : pendingPaymentsFor st bid
      = st.payments.filter (fun p => p.borrowing == bid && p.status == .PENDING) := rfl
  have hnil : st.payments.filter (fun p => p.borrowing == bid && p.status == .PENDING) ≠ [] := by
    intro h0
    rw [hpneq, h0] at hne
    exact absurd hne (by simp)
  obtain ⟨p0, hp0fil⟩ :
      ∃ p, p ∈ st.payments.filter (fun p => p.borrowing == bid && p.status == .PENDING) :=
    List.exists_mem_of_ne_nil _ hnil
  have hp0mem : p0 ∈ st.payments := (List.mem_filter.mp hp0fil).1
  have hp0cond : (p0.borrowing == bid && p0.status == .PENDING) = true :=
    (List.mem_filter.mp hp0fil).2
  have hMnil : sessionManifest st bid ≠ [] := by
    unfold sessionManifest
    rw [hpneq]
    intro h0
    exact hnil (List.map_eq_nil_iff.mp h0)
  have hMempty : ¬ ((sessionManifest st bid).isEmpty = true) := by
    cases hM : sessionManifest st bid with
    | nil => exact absurd hM hMnil
    | cons a as => simp
  have hcontains : ∀ p ∈ st.payments,
      (sessionManifest st bid).contains p.id
        = (p.borrowing == bid && p.status == .PENDING) := by
    intro p hp
    by_cases hc : (p.borrowing == bid && p.status == .PENDING) = true
    · rw [hc]
      have hmm : p.id ∈ sessionManifest st bid :=
        List.mem_map.mpr ⟨p, List.mem_filter.mpr ⟨hp, hc⟩, rfl⟩
      exact List.elem_eq_true_of_mem hmm
    · rw [Bool.not_eq_true] at hc
      rw [hc, Bool.eq_false_iff]
      intro hct
      have hmm : p.id ∈ sessionManifest st bid := List.mem_of_elem_eq_true hct
      obtain ⟨q, hqfil, hqid⟩ := List.mem_map.mp hmm
      have hqmem : q ∈ st.payments := (List.mem_filter.mp hqfil).1
      have hqcond := (List.mem_filter.mp hqfil).2
      have hqp : q = p := List.inj_on_of_nodup_map hpw hqmem hp hqid
      rw [hqp] at hqcond
      rw [hqcond] at hc
      exact absurd hc (by simp)
  -- the tagged state st1 and its properties
  have htag_id : ∀ p : Payment,
      ((if p.borrowing == bid && p.status == .PENDING then
          { p with session_id := some sd.session_id, session_url := some sd.session_url }
        else p) : Payment).id = p.id := by
    intro p
    by_cases hc : (p.borrowing == bid && p.status == .PENDING) = true <;> simp [hc]
  have hfound : ∀ w : List Payment,
      (∃ x ∈ w, (x.session_id == some sd.session_id) = true) →
      ¬ ((w.find? (fun p => p.session_id == some sd.session_id)).isNone = true) := by
    intro w hw
    have : (w.find? (fun p => p.session_id == some sd.session_id)).isSome :=
      List.find?_isSome.mpr hw
    obtain ⟨x, hx⟩ := Option.isSome_iff_exists.mp this
    rw [hx]
    simp
  have hp0tag :
      ((if p0.borrowing == bid && p0.status == .PENDING then
          { p0 with session_id := some sd.session_id, session_url := some sd.session_url }
        else p0) : Payment).session_id = some sd.session_id := by
    rw [if_pos hp0cond]
  have hfound1 : ¬ (((st.payments.map (fun p =>
      if p.borrowing == bid && p.status == .PENDING then
        { p with session_id := some sd.session_id, session_url := some sd.session_url }
      else p)).find? (fun p => p.session_id == some sd.session_id)).isNone = true) := by
    apply hfound
    refine ⟨_, List.mem_map.mpr ⟨p0, hp0mem, rfl⟩, ?_⟩
    rw [hp0tag]
    simp
  -- the composite update equals the claimed single map
  have hcompose : (st.payments.map (fun p =>
      if p.borrowing == bid && p.status == .PENDING then
        { p with session_id := some sd.session_id, session_url := some sd.session_url }
      else p)).map (fun p =>
        if (sessionManifest st bid).contains p.id then { p with status := .PAID } else p)
      = st.payments.map (fun p =>
          if p.borrowing == bid && p.status == .PENDING then
            { p with status := .PAID, session_id := some sd.session_id,
                     session_url := some sd.session_url }
          else p) := by
    rw [List.map_map]
    apply List.map_congr_left
    intro p hp
    by_cases hc : (p.borrowing == bid && p.status == .PENDING) = true
    · simp only [Function.comp_apply, if_pos hc]
      have hct : (sessionManifest st bid).contains
          (({ p with session_id := some sd.session_id,
                     session_url := some sd.session_url } : Payment).id) = true := by
        have hid0 : ({ p with session_id := some sd.session_id, session_url := some sd.session_url } : Payment).id = p.id := rfl
        rw [hid0, hcontains p hp, hc]
      rw [if_pos hct]
    · rw [Bool.not_eq_true] at hc
      simp only [Function.comp_apply, hc, Bool.false_eq_true, if_false]
      rw [hcontains p hp, hc]
      simp
  refine ⟨{ st with payments := st.payments.map (fun p =>
      if p.borrowing == bid && p.status == .PENDING then
        { p with status := .PAID, session_id := some sd.session_id,
                 session_url := some sd.session_url }
      else p) }, ?_, rfl, rfl, rfl, ?_, ?_, ?_⟩
  · -- first confirm
    unfold paymentsSuccess
    dsimp only
    rw [if_neg hfound1, if_pos (by rfl)]
    rw [if_neg hMempty, hcompose]
  · -- idempotence of the second confirm
    have hPAID : ∀ p ∈ st.payments.map (fun p =>
        if p.borrowing == bid && p.status == .PENDING then
          { p with status := .PAID, session_id := some sd.session_id,
                   session_url := some sd.session_url }
        else p), (sessionManifest st bid).contains p.id = true → p.status = .PAID := by
      intro p hp hct
      obtain ⟨q, hqmem, hqeq⟩ := List.mem_map.mp hp
      by_cases hc : (q.borrowing == bid && q.status == .PENDING) = true
      · rw [← hqeq, if_pos hc]
      · rw [Bool.not_eq_true] at hc
        rw [← hqeq, hc] at hct ⊢
        simp only [Bool.false_eq_true, if_false] at hct ⊢
        rw [hcontains q hqmem, hc] at hct
        exact absurd hct (by simp)
    have hfound2 : ¬ (((st.payments.map (fun p =>
        if p.borrowing == bid && p.status == .PENDING then
          { p with status := .PAID, session_id := some sd.session_id,
                   session_url := some sd.session_url }
        else p)).find? (fun p => p.session_id == some sd.session_id)).isNone = true) := by
      apply hfound
      refine ⟨_, List.mem_map.mpr ⟨p0, hp0mem, rfl⟩, ?_⟩
      rw [if_pos hp0cond]
      simp
    have hmapid : (st.payments.map (fun p =>
        if p.borrowing == bid && p.status == .PENDING then
          { p with status := .PAID, session_id := some sd.session_id,
                   session_url := some sd.session_url }
        else p)).map (fun p =>
          if (sessionManifest st bid).contains p.id then { p with status := .PAID } else p)
        = st.payments.map (fun p =>
            if p.borrowing == bid && p.status == .PENDING then
              { p with status := .PAID, session_id := some sd.session_id,
                       session_url := some sd.session_url }
            else p) := by
      have hcg := List.map_congr_left (l := st.payments.map (fun p =>
          if p.borrowing == bid && p.status == .PENDING then
            { p with status := .PAID, session_id := some sd.session_id,
                     session_url := some sd.session_url }
          else p))
        (f := fun p =>
          if (sessionManifest st bid).contains p.id then { p with status := .PAID } else p)
        (g := id) ?_
      · rw [hcg, List.map_id]
      · intro p hp
        show (if (sessionManifest st bid).contains p.id = true
              then ({ p with status := .PAID } : Payment) else p) = id p
        by_cases hct : (sessionManifest st bid).contains p.id = true
        · rw [if_pos hct, payment_set_status_self p (hPAID p hp hct)]
          rfl
        · rw [Bool.not_eq_true] at hct
          rw [hct]
          simp
    unfold paymentsSuccess
    dsimp only
    rw [if_neg hfound2, if_pos (by rfl)]
    rw [if_neg hMempty, hmapid]
  · -- unpaid session: no mutation
    intro q
    unfold paymentsSuccess
    dsimp only
    rw [if_neg hfound1]
    rfl
  · -- absent manifest: the session_id fallback hits the same payments
    have hfallback : ((st.payments.map (fun p =>
        if p.borrowing == bid && p.status == .PENDING then
          { p with session_id := some sd.session_id, session_url := some sd.session_url }
        else p)).filter (fun p => p.session_id == some sd.session_id)).map (·.id)
        = sessionManifest st bid := by
      rw [List.filter_map]
      have hfe : (st.payments.filter ((fun p => p.session_id == some sd.session_id) ∘
          (fun p => if p.borrowing == bid && p.status == .PENDING then
            { p with session_id := some sd.session_id, session_url := some sd.session_url }
          else p)))
          = st.payments.filter (fun p => p.borrowing == bid && p.status == .PENDING) := by
        apply List.filter_congr
        intro p hp
        by_cases hc : (p.borrowing == bid && p.status == .PENDING) = true
        · simp only [Function.comp_apply, if_pos hc, hc]
          simp
        · rw [Bool.not_eq_true] at hc
          simp only [Function.comp_apply, hc, Bool.false_eq_true, if_false]
          exact beq_eq_false_iff_ne.mpr (hfresh p hp)
      rw [hfe, List.map_map]
      unfold sessionManifest
      rw [hpneq]
      apply List.map_congr_left
      intro p hp
      exact htag_id p
    unfold paymentsSuccess
    dsimp only
    rw [if_neg hfound1, if_pos (by rfl)]
    rw [if_pos (by rfl), hfallback, hcompose]

/-- Claim C5 witness: two pending payments, a fresh session, the paid
round-trip at the concrete state. -/
theorem C5_confirm_round_trip_witness :
    ((stTwoPending.payments.map (·.id)).Nodup ∧
     (pendingPaymentsFor stTwoPending 10).isEmpty = false ∧
     (∀ p ∈ stTwoPending.payments, p.session_id ≠ some "sess1") ∧
     get_or_create_session_for_borrowing stTwoPending 10 (some ⟨"sess1", "url1"⟩)
       = .ok (stTwoPendingSessioned, some ⟨"sess1", "url1"⟩)) ∧
    (∃ st2,
      paymentsSuccess stTwoPendingSessioned (some "sess1") (some true)
          (some (sessionManifest stTwoPending 10))
        = (st2, .paidOk (sessionManifest stTwoPending 10)) ∧
      st2.books = stTwoPending.books ∧
      st2.borrowings = stTwoPending.borrowings ∧
      st2.payments = stTwoPending.payments.map (fun p =>
        if p.borrowing == 10 && p.status == .PENDING then
          { p with status := .PAID, session_id := some "sess1",
                   session_url := some "url1" }
        else p) ∧
      paymentsSuccess st2 (some "sess1") (some true)
          (some (sessionManifest stTwoPending 10))
        = (st2, .paidOk (sessionManifest stTwoPending 10)) ∧
      (∀ q, paymentsSuccess stTwoPendingSessioned (some "sess1") (some false) q
        = (stTwoPendingSessioned, .notCompleted)) ∧
      paymentsSuccess stTwoPendingSessioned (some "sess1") (some true) (some ([] : List Nat))
        = (st2, .paidOk (sessionManifest stTwoPending 10))) :=
  ⟨⟨by decide, by rfl, by decide, by rfl⟩,
   C5_confirm_round_trip stTwoPending 10 ⟨"sess1", "url1"⟩ stTwoPendingSessioned
     (by decide) (by rfl) (by decide) (by rfl)⟩

/-- A return either leaves the book table unchanged (any rejected
branch) or increments exactly one book row. -/
theorem borrowingReturn_books_cases (st : LibState) (r : Nat) (s : Bool)
    (bid : Nat) (t : Int) (oc : Option SessionData) :
    ((borrowingReturn st r s bid t oc).1).books = st.books ∨
    ∃ k, ((borrowingReturn st r s bid t oc).1).books
        = st.books.map (fun b =>
            if b.id == k then { b with inventory := b.inventory + 1 } else b) := by
  unfold borrowingReturn
  cases hf : (borrowingQuerysetFor st r s).find? (fun x => x.id == bid) with
  | none => exact Or.inl rfl
  | some br =>
    dsimp only
    by_cases h1 : br.actual_return_date.isSome = true
    · rw [if_pos h1]
      exact Or.inl rfl
    · rw [if_neg h1]
      by_cases h2 : ((st.payments.any fun p =>
          p.borrowing == bid && p.status == .PENDING) && !s) = true
      · rw [if_pos h2]
        exact Or.inl rfl
      · rw [if_neg h2, if_neg h2]
        obtain ⟨hbooks, -, -⟩ := returnEnsurePayments_frame st r s bid t oc
        cases hEP : returnEnsurePayments st r s bid t oc with
        | mk stX oe =>
          rw [hEP] at hbooks
          dsimp only at hbooks
          cases oe with
          | some e =>
            dsimp only
            exact Or.inl hbooks
          | none =>
            dsimp only
            cases hfb : findBook stX br.book with
            | none => exact Or.inl hbooks
            | some bk =>
              right
              refine ⟨br.book, ?_⟩
              dsimp only
              rw [hbooks]

/-- The requester's borrowing queryset commutes with a row update that
preserves the `user` column. -/
theorem querysetFor_map (st st2 : LibState) (r : Nat) (s : Bool)
    (f : Borrowing → Borrowing)
    (hu : ∀ x, (f x).user = x.user)
    (hb : st2.borrowings = st.borrowings.map f) :
    borrowingQuerysetFor st2 r s = (borrowingQuerysetFor st r s).map f := by
  unfold borrowingQuerysetFor
  rw [hb]
  by_cases hs : s = true
  · rw [if_pos hs, if_pos hs]
  · rw [if_neg hs, if_neg hs]
    exact filter_map_of_pred_inv (fun x => x.user == r) f (fun a => by simp only [hu]) _

/-- One operation preserves unique book keys and non-negative
inventories. -/
theorem wf_applyOp (st : LibState) (op : Op)
    (h1 : BooksWF st) (h2 : InventoryNonneg st) :
    BooksWF (applyOp st op) ∧ InventoryNonneg (applyOp st op) := by
  cases op with
  | create u bId e t =>
    unfold applyOp
    dsimp only
    cases hc : borrowingCreate st u bId e t with
    | error err => exact ⟨h1, h2⟩
    | ok w =>
      obtain ⟨st', br⟩ := w
      obtain ⟨bk, hfind, hpos, hbr, hst'⟩ := borrowingCreate_ok_spec st u bId e t st' br hc
      constructor
      · unfold BooksWF
        rw [hst']
        dsimp only
        rw [map_key_map_of_key_inv (fun b => b.id)
              (fun x => if x.id == bId then { x with inventory := x.inventory - 1 } else x)
              (fun a => by by_cases hk : (a.id == bId) = true <;> simp [hk]) st.books]
        exact h1
      · intro x hx
        rw [hst'] at hx
        dsimp only at hx
        rw [List.mem_map] at hx
        obtain ⟨a, ha, rfl⟩ := hx
        by_cases hk : (a.id == bId) = true
        · rw [if_pos hk]
          dsimp only
          have hbkmem := List.mem_of_find?_eq_some hfind
          have hbkpred := List.find?_some hfind
          have haeq : a = bk := by
            apply List.inj_on_of_nodup_map h1 ha hbkmem
            have ha1 : a.id = bId := by simpa using hk
            have ha2 : bk.id = bId := by simpa using hbkpred
            rw [ha1, ha2]
          rw [haeq]
          omega
        · rw [if_neg hk]
          exact h2 a ha
  | ret r s bid t oc =>
    unfold applyOp
    dsimp only
    rcases borrowingReturn_books_cases st r s bid t oc with hB | ⟨k, hB⟩
    · constructor
      · unfold BooksWF
        rw [hB]
        exact h1
      · intro x hx
        rw [hB] at hx
        exact h2 x hx
    · constructor
      · unfold BooksWF
        rw [hB]
        rw [map_key_map_of_key_inv (fun b => b.id)
              (fun b => if b.id == k then { b with inventory := b.inventory + 1 } else b)
              (fun a => by by_cases hk : (a.id == k) = true <;> simp [hk]) st.books]
        exact h1
      · intro x hx
        rw [hB] at hx
        rw [List.mem_map] at hx
        obtain ⟨a, ha, rfl⟩ := hx
        by_cases hk : (a.id == k) = true
        · rw [if_pos hk]
          dsimp only
          have := h2 a ha
          omega
        · rw [if_neg hk]
          exact h2 a ha

/-- Any sequence of operations preserves unique book keys and
non-negative inventories. -/
theorem wf_foldl (ops : List Op) :
    ∀ st : LibState, BooksWF st → InventoryNonneg st →
      BooksWF (ops.foldl applyOp st) ∧ InventoryNonneg (ops.foldl applyOp st) := by
  induction ops with
  | nil => exact fun st hq hn => ⟨hq, hn⟩
  | cons op ops ih =>
    intro st hq hn
    obtain ⟨hq', hn'⟩ := wf_applyOp st op hq hn
    exact ih _ hq' hn'

/-- A successful return resolved an active borrowing, committed the
payment-ensuring half without error, and performed exactly the
inventory increment and the date update. -/
theorem borrowingReturn_ok_spec (st : LibState) (r : Nat) (s : Bool) (bid : Nat)
    (t : Int) (oc : Option SessionData) (st' : LibState) (br' : Borrowing)
    (h : borrowingReturn st r s bid t oc = (st', .ok br')) :
    ∃ br stX,
      (borrowingQuerysetFor st r s).find? (fun x => x.id == bid) = some br ∧
      br.actual_return_date = none ∧
      br' = { br with actual_return_date := some t } ∧
      returnEnsurePayments st r s bid t oc = (stX, none) ∧
      stX.books = st.books ∧ stX.borrowings = st.borrowings ∧
      (∃ bk, findBook st br.book = some bk) ∧
      st' = { stX with
              books := stX.books.map (fun b =>
                if b.id == br.book then { b with inventory := b.inventory + 1 } else b),
              borrowings := stX.borrowings.map (fun x =>
                if x.id == bid then { x with actual_return_date := some t } else x) } := by
  unfold borrowingReturn at h
  cases hf : (borrowingQuerysetFor st r s).find? (fun x => x.id == bid) with
  | none =>
    rw [hf] at h
    exact absurd h (by simp)
  | some br =>
    rw [hf] at h
    dsimp only at h
    by_cases hact : br.actual_return_date.isSome = true
    · rw [if_pos hact] at h
      exact absurd h (by simp)
    · rw [if_neg hact] at h
      by_cases hp2 : ((st.payments.any fun p =>
          p.borrowing == bid && p.status == .PENDING) && !s) = true
      · rw [if_pos hp2] at h
        exact absurd h (by simp)
      · rw [if_neg hp2, if_neg hp2] at h
        obtain ⟨hbooks, hborrs, -⟩ := returnEnsurePayments_frame st r s bid t oc
        cases hEP : returnEnsurePayments st r s bid t oc with
        | mk stX oe =>
          rw [hEP] at h hbooks hborrs
          dsimp only at h hbooks hborrs
          cases oe with
          | some e =>
            dsimp only at h
            exact absurd h (by simp)
          | none =>
            dsimp only at h
            cases hfb : findBook stX br.book with
            | none =>
              rw [hfb] at h
              exact absurd h (by simp)
            | some bk =>
              rw [hfb] at h
              dsimp only at h
              simp only [Prod.mk.injEq, Except.ok.injEq] at h
              obtain ⟨hst', hbr'⟩ := h
              refine ⟨br, stX, rfl, Option.not_isSome_iff_eq_none.mp hact, hbr'.symm,
                rfl, hbooks, hborrs, ⟨bk, ?_⟩, hst'.symm⟩
              unfold findBook at hfb ⊢
              rw [← hbooks]
              exact hfb

/-- Claim C1: starting from a well-formed state (unique book keys,
non-negative inventories), no sequence of Create/Return operations ever
drives a book's inventory negative; a successful Create decrements the
book by exactly 1 and only when its inventory was positive; a successful
Return increments the book by exactly 1, stamps the return date, and any
later Return of the same borrowing is rejected with `AlreadyReturned`,
so the increment happens exactly once per returned borrowing. -/
theorem C1_inventory_never_negative (st : LibState)
    (hwf : BooksWF st) (hnn : InventoryNonneg st) :
    (∀ ops : List Op, InventoryNonneg (ops.foldl applyOp st)) ∧
    (∀ u bId e t st' br, borrowingCreate st u bId e t = .ok (st', br) →
       0 < bookInventory st bId ∧ bookInventory st' bId = bookInventory st bId - 1) ∧
    (∀ r s bid t oc st' br', borrowingReturn st r s bid t oc = (st', .ok br') →
       bookInventory st' br'.book = bookInventory st br'.book + 1 ∧
       br'.actual_return_date = some t ∧
       ∀ t2 oc2, (borrowingReturn st' r s bid t2 oc2).2 = .error .AlreadyReturned) := by
  refine ⟨fun ops => (wf_foldl ops st hwf hnn).2, ?_, ?_⟩
  · intro u bId e t st' br hc
    obtain ⟨bk, hfind, hpos, hbr, hst'⟩ := borrowingCreate_ok_spec st u bId e t st' br hc
    unfold findBook at hfind
    have hbkpred := List.find?_some hfind
    constructor
    · unfold bookInventory findBook
      rw [hfind]
      simp only [Option.map_some', Option.getD_some]
      exact hpos
    · rw [hst']
      unfold bookInventory findBook
      dsimp only
      rw [find?_map_of_pred_inv (fun b => b.id == bId)
            (fun x => if x.id == bId then { x with inventory := x.inventory - 1 } else x)
            (fun a => by by_cases hk : (a.id == bId) = true <;> simp [hk]) st.books]
      rw [hfind]
      simp only [Option.map_some', Option.getD_some]
      rw [if_pos hbkpred]
  · intro r s bid t oc st' br' h
    obtain ⟨br, stX, hq, hact, hbr', hEP, hbooks, hborrs, ⟨bk, hbk⟩, hst'⟩ :=
      borrowingReturn_ok_spec st r s bid t oc st' br' h
    have hbrbook : br'.book = br.book := by rw [hbr']
    unfold findBook at hbk
    have hbkpred := List.find?_some hbk
    have hbrpred := List.find?_some hq
    refine ⟨?_, by rw [hbr'], ?_⟩
    · rw [hst', hbrbook]
      unfold bookInventory findBook
      dsimp only
      rw [hbooks]
      rw [find?_map_of_pred_inv (fun b => b.id == br.book)
            (fun b => if b.id == br.book then { b with inventory := b.inventory + 1 } else b)
            (fun a => by by_cases hk : (a.id == br.book) = true <;> simp [hk]) st.books]
      rw [hbk]
      simp only [Option.map_some', Option.getD_some]
      rw [if_pos hbkpred]
    · intro t2 oc2
      have hqs2 : borrowingQuerysetFor st' r s
          = (borrowingQuerysetFor st r s).map
              (fun x => if x.id == bid then { x with actual_return_date := some t } else x) := by
        apply querysetFor_map st st' r s _ ?_ ?_
        · intro x
          by_cases hk : (x.id == bid) = true <;> simp [hk]
        · rw [hst']
          dsimp only
          rw [hborrs]
      have hfind2 : (borrowingQuerysetFor st' r s).find? (fun x => x.id == bid)
          = some { br with actual_return_date := some t } := by
        rw [hqs2]
        rw [find?_map_of_pred_inv (fun x => x.id == bid)
              (fun x => if x.id == bid then { x with actual_return_date := some t } else x)
              (fun a => by by_cases hk : (a.id == bid) = true <;> simp [hk])
              (borrowingQuerysetFor st r s)]
        rw [hq]
        simp only [Option.map_some']
        rw [if_pos hbrpred]
      unfold borrowingReturn
      rw [hfind2]
      dsimp only
      rw [if_pos (by rfl)]

/-- Claim C1 witness at the concrete unpaid-loan state. -/
theorem C1_inventory_never_negative_witness :
    (BooksWF stUnpaidLoan ∧ InventoryNonneg stUnpaidLoan) ∧
    ((∀ ops : List Op, InventoryNonneg (ops.foldl applyOp stUnpaidLoan)) ∧
     (∀ u bId e t st' br, borrowingCreate stUnpaidLoan u bId e t = .ok (st', br) →
        0 < bookInventory stUnpaidLoan bId ∧
        bookInventory st' bId = bookInventory stUnpaidLoan bId - 1) ∧
     (∀ r s bid t oc st' br', borrowingReturn stUnpaidLoan r s bid t oc = (st', .ok br') →
        bookInventory st' br'.book = bookInventory stUnpaidLoan br'.book + 1 ∧
        br'.actual_return_date = some t ∧
        ∀ t2 oc2, (borrowingReturn st' r s bid t2 oc2).2 = .error .AlreadyReturned)) :=
  ⟨⟨by decide, by decide⟩, C1_inventory_never_negative stUnpaidLoan (by decide) (by decide)⟩

end LibraryService
